import Mathlib

/-!
# Verification of the SAM fine-tuning training loop (`train.py`)

A shallow embedding of the training/validation orchestration code in
`train.py` of the `lightning_sam_colab` repository, together with proofs of
the specification's claims about it.

Scalars (losses, scores, learning-rate factors) are modelled as rationals.
The loss kernels (`FocalLoss`, `DiceLoss` from `losses.py`), the IoU
calculator (`calc_iou` from `utils.py`) and the `AverageMeter` tracker
(`utils.py`) are external to `train.py`; where the repository does not ship
their code they are modelled from the specification's contract and marked
as such in their doc comments.  Everything else is translated directly from
`train.py`.
-/

namespace LightningSam

/-! ## Batch data model (spec §3)

A training batch yields, per image, a parallel triple of predicted masks,
ground-truth masks and per-prompt IoU-quality predictions.  Masks are kept
abstract (type `M`); the spec's Prediction invariant makes the three
per-image sequences parallel, so we bundle them per image. -/

structure BatchImage (M : Type) where
  predMask : List M
  gtMask : List M
  iouPred : List ℚ

/-- `train.py` line 94:
`num_masks = sum(len(pred_mask) for pred_mask in pred_masks)`. -/
def numMasks {M : Type} (batch : List (BatchImage M)) : ℕ :=
  (batch.map (fun im => im.predMask.length)).sum

/-- Modelled from the spec: the focal loss kernel lives in `losses.py`,
which is not part of the sources.  Per the spec's loss-kernel contract and
its loss-normalization property ("`loss_focal` … equals the sum over all
masks of `focal(pred_i, gt_i, num_masks)`"), the kernel applied to an
image's stack of masks is the sum, over that image's (predicted,
ground-truth) mask pairs, of a per-mask focal term `focalM` taking the
normalization count. -/
def focalImage {M : Type} (focalM : M → M → ℕ → ℚ)
    (pred gt : List M) (n : ℕ) : ℚ :=
  ((pred.zip gt).map (fun p => focalM p.1 p.2 n)).sum

/-- Modelled from the spec: the dice loss kernel lives in `losses.py`,
which is not part of the sources; same per-mask decomposition as the focal
kernel. -/
def diceImage {M : Type} (diceM : M → M → ℕ → ℚ)
    (pred gt : List M) (n : ℕ) : ℚ :=
  ((pred.zip gt).map (fun p => diceM p.1 p.2 n)).sum

/-- Modelled from the spec: `calc_iou` lives in `utils.py`, which is not
part of the sources.  Per the spec it computes the actual overlap between
each predicted mask and its ground-truth mask, one scalar per prompt. -/
def calcIouImage {M : Type} (calcIouM : M → M → ℚ)
    (pred gt : List M) : List ℚ :=
  (pred.zip gt).map (fun p => calcIouM p.1 p.2)

/-- `F.mse_loss(a, b, reduction='sum')`: the sum of squared differences
over the paired entries. -/
def mseSum (a b : List ℚ) : ℚ :=
  ((a.zip b).map (fun p => (p.1 - p.2) ^ 2)).sum

/-- The per-image loop body of `train.py` lines 99–103, acting on the
accumulator `(loss_focal, loss_dice, loss_iou)`.  `n` is the batch-wide
`num_masks` value computed once at line 94. -/
def lossStep {M : Type} (focalM diceM : M → M → ℕ → ℚ)
    (calcIouM : M → M → ℚ) (n : ℕ)
    (acc : ℚ × ℚ × ℚ) (im : BatchImage M) : ℚ × ℚ × ℚ :=
  (acc.1 + focalImage focalM im.predMask im.gtMask n,
   acc.2.1 + diceImage diceM im.predMask im.gtMask n,
   acc.2.2 + mseSum im.iouPred (calcIouImage calcIouM im.predMask im.gtMask) / (n : ℚ))

/-- `train.py` lines 94–103: the three loss accumulators of one training
batch, starting from zero tensors and folding the per-image loop body over
the batch with the single batch-wide `num_masks`. -/
def batchLosses {M : Type} (focalM diceM : M → M → ℕ → ℚ)
    (calcIouM : M → M → ℚ) (batch : List (BatchImage M)) : ℚ × ℚ × ℚ :=
  batch.foldl (lossStep focalM diceM calcIouM (numMasks batch)) (0, 0, 0)

/-- `train.py` line 105: `loss_total = loss_focal + loss_dice + loss_iou`. -/
def lossTotal {M : Type} (focalM diceM : M → M → ℕ → ℚ)
    (calcIouM : M → M → ℚ) (batch : List (BatchImage M)) : ℚ :=
  (batchLosses focalM diceM calcIouM batch).1 +
    (batchLosses focalM diceM calcIouM batch).2.1 +
    (batchLosses focalM diceM calcIouM batch).2.2

/-- The normalization argument handed to the focal (and dice) kernel at
each iteration of the per-image loop (`train.py` line 100): every image of
the batch receives the same batch-wide `num_masks`. -/
def focalCallDivisors {M : Type} (batch : List (BatchImage M)) : List ℕ :=
  batch.map (fun _ => numMasks batch)

/-! ## Learning-rate schedule (`configure_opt`, lines 135–143) -/

/-- `train.py` lines 135–143: the `lr_lambda` piecewise schedule.
`step / cfg.opt.warmup_steps` is Python true division, modelled over ℚ. -/
def lr_lambda (warmup_steps steps0 steps1 : ℕ) (decay_factor : ℚ)
    (step : ℕ) : ℚ :=
  if step < warmup_steps then (step : ℚ) / (warmup_steps : ℚ)
  else if step < steps0 then 1
  else if step < steps1 then 1 / decay_factor
  else 1 / decay_factor ^ 2

/-! ## Best-score checkpoint gating (`train_sam`, lines 75 and 124–128) -/

/-- `train.py` lines 125–126: one epoch's update of `best_score`. -/
def bestUpdate (best score : ℚ) : ℚ :=
  if best < score then score else best

/-- The `best_score` value after folding an epoch's validation scores,
starting from the line-75 initialization (`best_score = 0` when `scores`
is the whole run's score sequence). -/
def bestAfter (b : ℚ) (scores : List ℚ) : ℚ :=
  scores.foldl bestUpdate b

/-- For each epoch in turn, whether the line-125 comparison
`score > best_score` succeeds — i.e. whether that epoch writes a
best-checkpoint file (line 128) — threading `best_score` as the code does. -/
def bestWrites (b : ℚ) : List ℚ → List Bool
  | [] => []
  | s :: rest => (b < s) :: bestWrites (bestUpdate b s) rest

/-- The value of `best_score` after each successive epoch. -/
def bestTrajectory (b : ℚ) : List ℚ → List ℚ
  | [] => []
  | s :: rest => bestUpdate b s :: bestTrajectory (bestUpdate b s) rest

/-! ## Epoch loop as an event trace (`train_sam`, lines 77–131)

To settle the temporal and rank-gating claims we re-express one run of
`train_sam` as the sequence of externally visible events it performs, in
program order: per-batch optimizer updates, the validation call (with the
rank-gated periodic checkpoint write it performs internally), the
un-gated best-checkpoint write, and the scheduler step. -/

inductive Ev : Type
  | trainBatch (epoch batchIdx : ℕ)
  | validateCall (epoch : ℕ)
  | savePeriodic (epoch : ℕ)
  | saveBest (epoch : ℕ)
  | schedStep (epoch : ℕ)
deriving DecidableEq, Repr

/-- The events of one iteration of the epoch loop (`train.py` lines
89–131), for a process of global rank `rank`: `nB` training batches each
ending in an optimizer step (line 109), then the `validate` call
(line 124) whose body writes the periodic checkpoint only when
`fabric.global_rank == 0` (lines 56–57), then the best-checkpoint write
when `score > best_score` (lines 125–128, not rank-gated), then the
single `scheduler.step()` (line 131). -/
def epochEvents (rank epoch nB : ℕ) (score best : ℚ) : List Ev :=
  (List.range nB).map (fun i => Ev.trainBatch epoch i)
    ++ [Ev.validateCall epoch]
    ++ (if rank = 0 then [Ev.savePeriodic epoch] else [])
    ++ (if best < score then [Ev.saveBest epoch] else [])
    ++ [Ev.schedStep epoch]

/-- `train.py` line 77: Python `range(1, num_epochs)` — the epoch indices
`1, …, num_epochs - 1`, empty when `num_epochs ≤ 1`. -/
def epochRange (numEpochs : ℕ) : List ℕ :=
  List.range' 1 (numEpochs - 1)

/-- The epoch loop over a given list of epoch indices, threading
`best_score` exactly as `train_sam` does (`nB e` is the number of training
batches the loader yields in epoch `e`, `score e` that epoch's validation
result). -/
def runEpochs (rank : ℕ) (nB : ℕ → ℕ) (score : ℕ → ℚ) :
    List ℕ → ℚ → List Ev
  | [], _ => []
  | e :: rest, best =>
      epochEvents rank e (nB e) (score e) best
        ++ runEpochs rank nB score rest (bestUpdate best (score e))

/-- The full event trace of one `train_sam` call: the epoch loop over
`range(1, num_epochs)` starting from `best_score = 0`. -/
def trainSamTrace (rank numEpochs : ℕ) (nB : ℕ → ℕ) (score : ℕ → ℚ) :
    List Ev :=
  runEpochs rank nB score (epochRange numEpochs) 0

/-- Whether an event is a scheduler step. -/
def Ev.isSched : Ev → Bool
  | Ev.schedStep _ => true
  | _ => false

/-! ## Checkpoint files (`validate` lines 55–57, `train_sam` lines 127–128) -/

/-- Python `f"{n:06d}"` for a non-negative integer: decimal digits
left-padded with zeros to width six. -/
def pad6 (n : ℕ) : String :=
  let s := toString n
  String.mk (List.replicate (6 - s.length) '0') ++ s

/-- Two-digit zero-padded rendering of a natural number below 100. -/
def pad2 (n : ℕ) : String :=
  if n < 10 then "0" ++ toString n else toString n

/-- Python `f"{q:.2f}"` on a non-negative score, modelled over ℚ: the
score rounded to the nearest hundredth (ties upward; CPython breaks ties
on the underlying binary float) and printed with exactly two decimals. -/
def fmt2 (q : ℚ) : String :=
  let n : ℕ := (⌊q * 100 + 1 / 2⌋).toNat
  toString (n / 100) ++ "." ++ pad2 (n % 100)

/-- A checkpoint file's payload: `train.py` saves
`model.model.state_dict()` in both places (lines 55 and 127), never
optimizer or scheduler state. -/
inductive CkptPayload : Type
  | modelStateDict
  | optimizerState
  | schedulerState
deriving DecidableEq, Repr

/-- `train.py` line 57: the periodic checkpoint written inside `validate`
— file name `f"epoch-{epoch:06d}-f1{f1_scores.avg:.2f}-ckpt.pth"`, payload
the model-only state dict from line 55. -/
def periodicCkpt (epoch : ℕ) (score : ℚ) : String × CkptPayload :=
  ("epoch-" ++ pad6 epoch ++ "-f1" ++ fmt2 score ++ "-ckpt.pth",
   CkptPayload.modelStateDict)

/-- `train.py` line 128: the best checkpoint written in the training loop
— file name `f"best-epoch-{epoch}-f1{score:.2f}.pth"` (epoch not
zero-padded), payload the model-only state dict from line 127. -/
def bestCkpt (epoch : ℕ) (score : ℚ) : String × CkptPayload :=
  ("best-epoch-" ++ toString epoch ++ "-f1" ++ fmt2 score ++ ".pth",
   CkptPayload.modelStateDict)

/-! ## Running-statistics tracker reads (`validate` lines 28–52,
`train_sam` lines 78–123)

`AverageMeter` is in `utils.py`, which is not part of the sources; the
spec's contract (§4.1) is `update(value, n)` does `sum += value * n;
count += n`, and `average = sum / count`, undefined at `count = 0`.  For
the read-before-update claim only the evolution of `count` matters, so we
record the tracker's `count` at each point where the code reads its
`avg` field. -/

/-- One validation batch, abstracted to what drives the tracker counts:
`numImages` = `images.size(0)` and `numPairs` = the number of
`(pred_mask, gt_mask)` pairs the inner loop of lines 38–48 iterates. -/
structure ValBatch where
  numImages : ℕ
  numPairs : ℕ
deriving DecidableEq, Repr

/-- Modelled from the spec (`AverageMeter` in `utils.py` is not under
`src/`): the tracker's `count` after processing a prefix of validation
batches — each of a batch's `numPairs` inner iterations calls
`update(value, num_images)` (lines 47–48), adding `numImages` to `count`
each time. -/
def valCountAfter (c : ℕ) : List ValBatch → ℕ
  | [] => c
  | b :: rest => valCountAfter (c + b.numPairs * b.numImages) rest

/-- The tracker `count` in force at each read of `ious.avg` /
`f1_scores.avg` in one `validate` call: line 49 reads it once per batch
(after that batch's updates), and lines 52, 57 and 59 read it once more
after the loop. -/
def valAvgReadCounts (c : ℕ) : List ValBatch → List ℕ
  | [] => [c]
  | b :: rest => (c + b.numPairs * b.numImages) :: valAvgReadCounts (c + b.numPairs * b.numImages) rest

/-- The loss trackers' `count` at the single point a training epoch reads
their `avg` (line 122): each batch performs one `update(·, batch_size)`
(lines 114–117), so the count is the sum of the epoch's batch sizes. -/
def trainAvgReadCount (batchSizes : List ℕ) : ℕ :=
  batchSizes.sum

/-! ## Helper lemmas -/

/-- The batch fold of the per-image loss-loop body adds, component-wise,
the per-image contributions to the starting accumulator. -/
lemma foldl_lossStep {M : Type} (focalM diceM : M → M → ℕ → ℚ)
    (calcIouM : M → M → ℚ) (n : ℕ) (l : List (BatchImage M)) (a b c : ℚ) :
    l.foldl (lossStep focalM diceM calcIouM n) (a, b, c) =
      (a + (l.map (fun im => focalImage focalM im.predMask im.gtMask n)).sum,
       b + (l.map (fun im => diceImage diceM im.predMask im.gtMask n)).sum,
       c + (l.map (fun im =>
         mseSum im.iouPred (calcIouImage calcIouM im.predMask im.gtMask)
           / (n : ℚ))).sum) := by
  induction l generalizing a b c with
  | nil => simp
  | cons im rest ih =>
    simp only [List.foldl_cons, lossStep, List.map_cons, List.sum_cons, ih]
    refine Prod.ext (by ring) (Prod.ext (by ring) (by ring))

/-- Summing a function over a flatMap equals the iterated sum. -/
lemma sum_flatMap_eq {α : Type} (f : α → List ℚ) (l : List α) :
    (l.flatMap f).sum = (l.map (fun x => (f x).sum)).sum := by
  induction l with
  | nil => simp
  | cons x xs ih => simp [ih]

/-- The first loss accumulator of a batch is the sum, over all
(predicted, ground-truth) mask pairs of the whole batch, of the per-mask
focal term at the batch-wide `num_masks`. -/
lemma batchLosses_focal {M : Type} (focalM diceM : M → M → ℕ → ℚ)
    (calcIouM : M → M → ℚ) (batch : List (BatchImage M)) :
    (batchLosses focalM diceM calcIouM batch).1 =
      ((batch.flatMap (fun im => im.predMask.zip im.gtMask)).map
        (fun p => focalM p.1 p.2 (numMasks batch))).sum := by
  rw [batchLosses, foldl_lossStep]
  simp only [zero_add, List.map_flatMap]
  rw [sum_flatMap_eq]
  simp [focalImage]

/-! ## C1: batch-wide `num_masks` shared by every loss accumulation -/

/-- C1: For every training batch, `num_masks` is the total predicted-mask
count across the batch (the sum over images of that image's
predicted-mask count); every iteration of the per-image loss loop passes
this one batch-wide value as the focal/dice normalizer (it is never
recomputed per image); consequently `loss_focal` equals the sum, over all
(predicted, ground-truth) mask pairs of the batch, of
`focal(pred_i, gt_i, num_masks)`. -/
theorem num_masks_shared_batchwide {M : Type} (focalM diceM : M → M → ℕ → ℚ)
    (calcIouM : M → M → ℚ) (batch : List (BatchImage M)) :
    numMasks batch = (batch.map (fun im => im.predMask.length)).sum ∧
    focalCallDivisors batch = List.replicate batch.length (numMasks batch) ∧
    (batchLosses focalM diceM calcIouM batch).1 =
      ((batch.flatMap (fun im => im.predMask.zip im.gtMask)).map
        (fun p => focalM p.1 p.2 (numMasks batch))).sum := by
  refine ⟨rfl, ?_, batchLosses_focal focalM diceM calcIouM batch⟩
  simp [focalCallDivisors, List.map_const']

/-! ## C2: IoU-regression loss normalization and the total loss -/

/-- A concrete two-image batch with one and two prompt masks (masks are
identified by index), used to instantiate the end-to-end loss scenario. -/
def exampleBatch : List (BatchImage ℕ) :=
  [⟨[0], [3], [1/2]⟩, ⟨[1, 2], [4, 5], [1/4, 3/4]⟩]

/-- A concrete IoU calculator for the scenario. -/
def exampleIou (a b : ℕ) : ℚ := 1 / (a + b + 1)

/-- C2: For every training batch, `loss_iou` equals the sum over the
batch's image triples of `mse(quality_prediction, actual_iou,
reduction=sum) / num_masks`, and `loss_total` equals
`loss_focal + loss_dice + loss_iou`; in particular, for a batch of 2
images with 1 and 2 mask prompts (`num_masks = 3`), `loss_iou` equals the
sum over the 3 masks of the squared-error terms divided by 3. -/
theorem loss_iou_normalization :
    (∀ (M : Type) (focalM diceM : M → M → ℕ → ℚ) (calcIouM : M → M → ℚ)
        (batch : List (BatchImage M)),
      (batchLosses focalM diceM calcIouM batch).2.2 =
        (batch.map (fun im =>
          mseSum im.iouPred (calcIouImage calcIouM im.predMask im.gtMask)
            / (numMasks batch : ℚ))).sum ∧
      lossTotal focalM diceM calcIouM batch =
        (batchLosses focalM diceM calcIouM batch).1 +
          (batchLosses focalM diceM calcIouM batch).2.1 +
          (batchLosses focalM diceM calcIouM batch).2.2) ∧
    numMasks exampleBatch = 3 ∧
    (batchLosses (fun _ _ _ => 0) (fun _ _ _ => 0) exampleIou exampleBatch).2.2 =
      ((1/2 - exampleIou 0 3) ^ 2 + ((1/4 - exampleIou 1 4) ^ 2 +
        (3/4 - exampleIou 2 5) ^ 2)) / 3 := by
  refine ⟨fun M focalM diceM calcIouM batch => ⟨?_, rfl⟩, rfl, ?_⟩
  · rw [batchLosses, foldl_lossStep]
    simp
  · norm_num [batchLosses, lossStep, exampleBatch, exampleIou, numMasks,
      mseSum, calcIouImage, focalImage, diceImage]

/-! ## C3: the learning-rate factor function -/

/-- C3 (counterexample): the claim quantifies over every configuration
with `warmup_steps > 0`, ascending two-element `steps` and
`decay_factor ≠ 0`, but with `warmup_steps = 5`, `steps = [3, 4]`,
`decay_factor = 2` — a configuration satisfying all three hypotheses —
the code returns `3/5` at `step = steps[0] = 3` and `4/5` at
`step = steps[1] = 4` (the warmup branch still applies), not the claimed
`1/decay_factor = 1/2` and `1/decay_factor² = 1/4`. -/
theorem lr_lambda_claim_counterexample :
    0 < 5 ∧ 3 < 4 ∧ (2 : ℚ) ≠ 0 ∧
    lr_lambda 5 3 4 2 3 = 3 / 5 ∧ ¬ lr_lambda 5 3 4 2 3 = 1 / 2 ∧
    lr_lambda 5 3 4 2 4 = 4 / 5 ∧ ¬ lr_lambda 5 3 4 2 4 = 1 / 4 := by
  norm_num [lr_lambda]

/-- C3 (amended): under the additional hypothesis
`warmup_steps < steps[0]`, the factor function returns
`step/warmup_steps` when `step < warmup_steps` (so `factor 0 = 0`),
`1.0` when `warmup_steps ≤ step < steps[0]`, `1/decay_factor` when
`steps[0] ≤ step < steps[1]`, and `1/decay_factor²` otherwise; in
particular `factor warmup_steps = 1`, `factor steps[0] = 1/decay_factor`
and `factor steps[1] = 1/decay_factor²`. -/
theorem lr_lambda_piecewise (w s0 s1 : ℕ) (d : ℚ) (hw : 0 < w)
    (hws : w < s0) (hs : s0 < s1) (_hd : d ≠ 0) :
    (∀ step, step < w → lr_lambda w s0 s1 d step = (step : ℚ) / (w : ℚ)) ∧
    lr_lambda w s0 s1 d 0 = 0 ∧
    (∀ step, w ≤ step → step < s0 → lr_lambda w s0 s1 d step = 1) ∧
    (∀ step, s0 ≤ step → step < s1 → lr_lambda w s0 s1 d step = 1 / d) ∧
    (∀ step, s1 ≤ step → lr_lambda w s0 s1 d step = 1 / d ^ 2) ∧
    lr_lambda w s0 s1 d w = 1 ∧
    lr_lambda w s0 s1 d s0 = 1 / d ∧
    lr_lambda w s0 s1 d s1 = 1 / d ^ 2 := by
  refine ⟨fun step h => by rw [lr_lambda, if_pos h], ?_,
    fun step h1 h2 => by rw [lr_lambda, if_neg (by omega), if_pos h2],
    fun step h1 h2 => by
      rw [lr_lambda, if_neg (by omega), if_neg (by omega), if_pos h2],
    fun step h1 => by
      rw [lr_lambda, if_neg (by omega), if_neg (by omega), if_neg (by omega)],
    by rw [lr_lambda, if_neg (by omega), if_pos hws],
    by rw [lr_lambda, if_neg (by omega), if_neg (by omega), if_pos hs],
    by rw [lr_lambda, if_neg (by omega), if_neg (by omega), if_neg (by omega)]⟩
  rw [lr_lambda, if_pos hw]
  simp

/-- Witness for the amended C3 theorem at the concrete configuration
`warmup_steps = 2`, `steps = [5, 8]`, `decay_factor = 4`. -/
theorem lr_lambda_piecewise_witness :
    lr_lambda 2 5 8 4 2 = 1 ∧ lr_lambda 2 5 8 4 5 = 1 / 4 ∧
    lr_lambda 2 5 8 4 8 = 1 / 16 := by
  have h := lr_lambda_piecewise 2 5 8 4 (by norm_num) (by norm_num)
    (by norm_num) (by norm_num)
  exact ⟨h.2.2.2.2.2.1, h.2.2.2.2.2.2.1, by rw [h.2.2.2.2.2.2.2]; norm_num⟩

/-! ## C4: best-score checkpoint gating -/

/-- One best-score update stays below `s` exactly when both inputs do. -/
lemma bestUpdate_lt_iff (b x s : ℚ) :
    bestUpdate b x < s ↔ b < s ∧ x < s := by
  unfold bestUpdate
  split
  · exact ⟨fun h => ⟨by linarith, h⟩, fun h => h.2⟩
  · exact ⟨fun h => ⟨h, by linarith⟩, fun h => h.1⟩

/-- The running best after a prefix is below `s` exactly when the start
value and every prefix score are below `s`. -/
lemma bestAfter_lt_iff (l : List ℚ) (b s : ℚ) :
    bestAfter b l < s ↔ b < s ∧ ∀ x ∈ l, x < s := by
  induction l generalizing b with
  | nil => simp [bestAfter]
  | cons x xs ih =>
    show bestAfter (bestUpdate b x) xs < s ↔ _
    rw [ih, bestUpdate_lt_iff]
    simp only [List.forall_mem_cons]
    tauto

/-- Position `i` of the `bestWrites` flag list records whether score `i`
beats the running best over the preceding prefix. -/
lemma bestWrites_getD (l : List ℚ) (b : ℚ) (i : ℕ) (h : i < l.length) :
    (bestWrites b l).getD i false =
      decide (bestAfter b (l.take i) < l.getD i 0) := by
  induction l generalizing b i with
  | nil => simp at h
  | cons s rest ih =>
    cases i with
    | zero => simp [bestWrites, bestAfter]
    | succ i =>
      simp only [bestWrites, List.getD_cons_succ, List.take_succ_cons]
      rw [ih _ _ (by simpa using h)]
      rfl

/-- The running best never decreases from one epoch to the next. -/
lemma bestTrajectory_chain (l : List ℚ) (b : ℚ) :
    List.Chain' (· ≤ ·) (b :: bestTrajectory b l) := by
  induction l generalizing b with
  | nil => simp [bestTrajectory]
  | cons s rest ih =>
    rw [bestTrajectory, List.chain'_cons]
    refine ⟨?_, ih _⟩
    unfold bestUpdate
    split <;> linarith

/-- C4: starting from `best_score = 0`, the best-checkpoint write flag of
epoch `i` is set if and only if that epoch's score strictly exceeds 0 and
every prior epoch's score; the `best_score` trajectory is monotonically
non-decreasing from 0; and on the score sequence
`[0.3, 0.5, 0.4, 0.6]` best checkpoints are written exactly at the epochs
scoring 0.3, 0.5 and 0.6, never at 0.4. -/
theorem best_checkpoint_gating (scores : List ℚ) (i : ℕ)
    (h : i < scores.length) :
    ((bestWrites 0 scores).getD i false = true ↔
      (0 < scores.getD i 0 ∧ ∀ x ∈ scores.take i, x < scores.getD i 0)) ∧
    List.Chain' (· ≤ ·) (0 :: bestTrajectory 0 scores) ∧
    bestWrites 0 [3/10, 5/10, 4/10, 6/10] = [true, true, false, true] := by
  refine ⟨?_, bestTrajectory_chain scores 0, ?_⟩
  · rw [bestWrites_getD scores 0 i h]
    simp [bestAfter_lt_iff]
  · norm_num [bestWrites, bestUpdate]

/-- Witness for C4 at the spec's four-epoch score sequence. -/
theorem best_checkpoint_gating_witness :
    bestWrites 0 [3/10, 5/10, 4/10, 6/10] = [true, true, false, true] :=
  (best_checkpoint_gating [3/10, 5/10, 4/10, 6/10] 0 (by norm_num)).2.2

/-! ## C5: validation strictly between the epoch's batches and its
scheduler step -/

/-- The epoch event list, re-associated to expose the leading batch
segment. -/
lemma epochEvents_eq (rank e n : ℕ) (s best : ℚ) :
    epochEvents rank e n s best =
      (List.range n).map (fun i => Ev.trainBatch e i) ++
        (Ev.validateCall e ::
          ((if rank = 0 then [Ev.savePeriodic e] else []) ++
            ((if best < s then [Ev.saveBest e] else []) ++
              [Ev.schedStep e]))) := by
  simp [epochEvents]

/-- Within one epoch's events the scheduler step occurs exactly once. -/
lemma epochEvents_filter_sched (rank e n : ℕ) (s best : ℚ) :
    (epochEvents rank e n s best).filter Ev.isSched = [Ev.schedStep e] := by
  unfold epochEvents
  split_ifs <;>
    simp [List.filter_append, List.filter_eq_nil_iff, Ev.isSched]

/-- Over any epoch list, the filtered trace of scheduler steps is one
step per epoch, in epoch order, regardless of the threaded best score. -/
lemma runEpochs_filter_sched (rank : ℕ) (nB : ℕ → ℕ) (score : ℕ → ℚ)
    (l : List ℕ) (b : ℚ) :
    (runEpochs rank nB score l b).filter Ev.isSched = l.map Ev.schedStep := by
  induction l generalizing b with
  | nil => rfl
  | cons e rest ih =>
    rw [runEpochs, List.filter_append, epochEvents_filter_sched, ih]
    rfl

/-- C5: in every epoch's event sequence, the training batches occupy
positions `0, …, nB - 1`, the validation call sits at position `nB`
(strictly after every batch), and the scheduler step is the last event
(strictly after the validation call) and occurs exactly once; over the
whole run the scheduler-step trace is exactly one step per epoch, so the
schedule sees the number of completed epochs, not the number of optimizer
updates. -/
theorem validation_between_batches_and_sched (rank numEpochs : ℕ)
    (nB : ℕ → ℕ) (score : ℕ → ℚ) (e n : ℕ) (s best : ℚ) :
    (∀ i, i < n →
      (epochEvents rank e n s best)[i]? = some (Ev.trainBatch e i)) ∧
    (epochEvents rank e n s best)[n]? = some (Ev.validateCall e) ∧
    n + 1 < (epochEvents rank e n s best).length ∧
    (epochEvents rank e n s best).getLast? = some (Ev.schedStep e) ∧
    (epochEvents rank e n s best).filter Ev.isSched = [Ev.schedStep e] ∧
    (trainSamTrace rank numEpochs nB score).filter Ev.isSched =
      (epochRange numEpochs).map Ev.schedStep := by
  refine ⟨fun i hi => ?_, ?_, ?_, ?_, epochEvents_filter_sched rank e n s best,
    runEpochs_filter_sched rank nB score (epochRange numEpochs) 0⟩
  · rw [epochEvents_eq, List.getElem?_append_left (by simpa using hi)]
    simp [List.getElem?_range hi]
  · rw [epochEvents_eq, List.getElem?_append_right (by simp)]
    simp
  · rw [epochEvents_eq]
    simp only [List.length_append, List.length_map, List.length_range,
      List.length_cons]
    split_ifs <;> simp
  · rw [epochEvents_eq]
    simp [List.getLast?_cons, List.getLast?_append]

/-- Witness for C5 at a concrete run: rank 0, `num_epochs = 3`, two
batches per epoch. -/
theorem validation_between_batches_and_sched_witness :
    (trainSamTrace 0 3 (fun _ => 2) (fun _ => (1 : ℚ))).filter Ev.isSched =
      (epochRange 3).map Ev.schedStep ∧
    (epochEvents 0 1 2 (1 : ℚ) 0)[0]? = some (Ev.trainBatch 1 0) := by
  have h := validation_between_batches_and_sched 0 3 (fun _ => 2)
    (fun _ => (1 : ℚ)) 1 2 (1 : ℚ) 0
  exact ⟨h.2.2.2.2.2, h.1 0 (by norm_num)⟩

/-! ## C6: rank gating of the two checkpoint writes -/

/-- C6: in every epoch's events, the periodic checkpoint write performed
inside `validate` occurs iff the process has global rank 0, while the
validation call itself occurs for every rank; the best-checkpoint write
is not rank-gated — it occurs, for every rank, iff the epoch's score
beats the running best. -/
theorem checkpoint_write_rank_gating (rank e n : ℕ) (s best : ℚ) :
    (Ev.savePeriodic e ∈ epochEvents rank e n s best ↔ rank = 0) ∧
    Ev.validateCall e ∈ epochEvents rank e n s best ∧
    (Ev.saveBest e ∈ epochEvents rank e n s best ↔ best < s) := by
  unfold epochEvents
  split_ifs <;> simp_all

/-! ## C8: the epoch loop iterates `range(1, num_epochs)` -/

/-- C8: the epoch loop visits indices `1, …, num_epochs - 1` in order
(`num_epochs` is an exclusive upper bound); when `num_epochs ≤ 1` the
loop body never runs and the run's event trace is empty — no in-loop
validation call and no scheduler step occurs. -/
theorem epoch_loop_range (n : ℕ) :
    (epochRange n).length = n - 1 ∧
    (∀ i, i < n - 1 → (epochRange n)[i]? = some (1 + i)) ∧
    (n ≤ 1 → epochRange n = [] ∧
      ∀ (rank : ℕ) (nB : ℕ → ℕ) (score : ℕ → ℚ),
        trainSamTrace rank n nB score = []) := by
  have hnil : n ≤ 1 → epochRange n = [] := by
    intro h
    unfold epochRange
    have : n - 1 = 0 := by omega
    rw [this]
    rfl
  refine ⟨List.length_range' 1 1 (n - 1), fun i hi => ?_, fun h =>
    ⟨hnil h, fun rank nB score => ?_⟩⟩
  · rw [epochRange, List.getElem?_range' 1 1 hi]
    simp
  · unfold trainSamTrace
    rw [hnil h]
    rfl

/-- Witness for C8 at `num_epochs = 1`: zero loop iterations, empty
trace. -/
theorem epoch_loop_range_witness :
    epochRange 1 = [] ∧
    trainSamTrace 0 1 (fun _ => 1) (fun _ => (1 : ℚ)) = [] :=
  ⟨((epoch_loop_range 1).2.2 (le_refl 1)).1,
   ((epoch_loop_range 1).2.2 (le_refl 1)).2 0 (fun _ => 1) (fun _ => (1 : ℚ))⟩

/-! ## C7: checkpoint file names and contents -/

/-- C7: every periodic checkpoint is named
`epoch-{epoch:06d}-f1{score:.2f}-ckpt.pth` and every best checkpoint
`best-epoch-{epoch}-f1{score:.2f}.pth` — the epoch is zero-padded to six
digits only in the periodic name, the score is formatted to two decimals
in both — and both files carry only the model's parameter state dict,
never optimizer or schedule state; concretely at epoch 7 with score 1/2
the names are `epoch-000007-f10.50-ckpt.pth` and
`best-epoch-7-f10.50.pth`. -/
theorem checkpoint_file_naming (e : ℕ) (s : ℚ) :
    periodicCkpt e s =
      ("epoch-" ++ pad6 e ++ "-f1" ++ fmt2 s ++ "-ckpt.pth",
       CkptPayload.modelStateDict) ∧
    bestCkpt e s =
      ("best-epoch-" ++ toString e ++ "-f1" ++ fmt2 s ++ ".pth",
       CkptPayload.modelStateDict) ∧
    (periodicCkpt e s).2 ≠ CkptPayload.optimizerState ∧
    (bestCkpt e s).2 ≠ CkptPayload.optimizerState ∧
    (periodicCkpt e s).2 ≠ CkptPayload.schedulerState ∧
    (bestCkpt e s).2 ≠ CkptPayload.schedulerState ∧
    periodicCkpt 7 (1/2) =
      ("epoch-000007-f10.50-ckpt.pth", CkptPayload.modelStateDict) ∧
    bestCkpt 7 (1/2) =
      ("best-epoch-7-f10.50.pth", CkptPayload.modelStateDict) := by
  refine ⟨rfl, rfl, by simp [periodicCkpt], by simp [bestCkpt],
    by simp [periodicCkpt], by simp [bestCkpt], ?_, ?_⟩ <;>
  · norm_num [periodicCkpt, bestCkpt, pad6, fmt2, pad2]
    rfl

/-! ## C9: tracker averages are read only after an update -/

/-- Every count recorded along a validation run is at least the starting
count. -/
lemma valAvgReadCounts_ge (l : List ValBatch) (c : ℕ) :
    ∀ x ∈ valAvgReadCounts c l, c ≤ x := by
  induction l generalizing c with
  | nil => simp [valAvgReadCounts]
  | cons b rest ih =>
    intro x hx
    rcases List.mem_cons.1 hx with h | h
    · omega
    · have := ih _ _ h
      omega

/-- C9 (counterexample): on an empty validation dataloader the code still
reads `ious.avg` / `f1_scores.avg` after the loop (`train.py` lines 52,
57, 59) with the tracker count at 0 — an average read before any update —
and a training epoch whose loader yields no batches likewise reads the
loss trackers' `avg` at line 122 with count 0. -/
theorem avg_read_before_update_counterexample :
    valAvgReadCounts 0 [] = [0] ∧ 0 ∈ valAvgReadCounts 0 [] ∧
    trainAvgReadCount [] = 0 := by
  exact ⟨rfl, by simp [valAvgReadCounts], rfl⟩

/-- C9 (amended): provided the validation dataloader yields at least one
batch whose first batch performs at least one positively weighted update
(`numPairs * numImages ≥ 1`), every read of a validation tracker's `avg`
happens with positive count; and provided a training epoch processes at
least one batch (every yielded batch nonempty), the end-of-epoch `avg`
read of the loss trackers happens with positive count. -/
theorem avg_read_after_update (b0 : ValBatch) (rest : List ValBatch)
    (h1 : 1 ≤ b0.numPairs * b0.numImages)
    (sizes : List ℕ) (hne : sizes ≠ []) (hpos : ∀ x ∈ sizes, 1 ≤ x) :
    (∀ c ∈ valAvgReadCounts 0 (b0 :: rest), 0 < c) ∧
    0 < trainAvgReadCount sizes := by
  constructor
  · intro c hc
    rcases List.mem_cons.1 hc with h | h
    · omega
    · have := valAvgReadCounts_ge rest (0 + b0.numPairs * b0.numImages) c h
      omega
  · cases sizes with
    | nil => exact absurd rfl hne
    | cons x xs =>
      have hx : 1 ≤ x := hpos x (List.mem_cons_self x xs)
      simp only [trainAvgReadCount, List.sum_cons]
      omega

/-- Witness for the amended C9 at a one-batch validation run and a
one-batch training epoch. -/
theorem avg_read_after_update_witness : 0 < trainAvgReadCount [2] :=
  (avg_read_after_update ⟨1, 1⟩ [] (by norm_num) [2] (by simp)
    (by simp)).2

/-! ## C10: the divisions by `num_masks` are unguarded -/

/-- C10: the loss loop guards none of its divisions by `num_masks`; on a
batch in which every image carries zero prompt masks, `num_masks` is 0,
yet the per-image loop body still executes (once per image), passing 0 as
the focal/dice normalizer and dividing the summed MSE term by 0 — the
division-by-zero branch is reachable whenever the loop body runs on such
a batch. -/
theorem num_masks_division_unguarded {M : Type}
    (batch : List (BatchImage M)) (hne : batch ≠ [])
    (hz : ∀ im ∈ batch, im.predMask = []) :
    numMasks batch = 0 ∧
    focalCallDivisors batch = List.replicate batch.length 0 ∧
    1 ≤ batch.length := by
  have h0 : numMasks batch = 0 := by
    unfold numMasks
    rw [List.sum_eq_zero]
    intro x hx
    obtain ⟨im, him, rfl⟩ := List.mem_map.1 hx
    simp [hz im him]
  refine ⟨h0, ?_, ?_⟩
  · rw [← h0]
    simp [focalCallDivisors, List.map_const']
  · cases batch with
    | nil => exact absurd rfl hne
    | cons _ _ => simp

/-- Witness for C10: a one-image batch with no prompt masks. -/
theorem num_masks_division_unguarded_witness :
    numMasks ([⟨[], [], []⟩] : List (BatchImage ℕ)) = 0 ∧
    focalCallDivisors ([⟨[], [], []⟩] : List (BatchImage ℕ)) =
      List.replicate 1 0 ∧
    1 ≤ ([⟨[], [], []⟩] : List (BatchImage ℕ)).length := by
  have h := num_masks_division_unguarded
    ([⟨[], [], []⟩] : List (BatchImage ℕ)) (by simp) (by simp)
  simpa using h

end LightningSam
